import Mathlib

/-!
Verification of the structural-similarity clique detector and class-merging
orchestrator (CombineClasses): a shallow embedding of the source functions
typeSetsCanBeCombined, canBeCombined, tryAddToClique, findSimilarityCliques
and combineClasses, with theorems settling the specification claims.

Conventions of the embedding:
* JavaScript numbers appearing here are small natural-number sizes, and the
  only non-integer constant is REQUIRED_OVERLAP = 0.75 = 3/4, which is exact
  in binary floating point; a comparison s1 < s2 * 0.75 is therefore embedded
  exactly as 4 * s1 < 3 * s2, and ceil(n * 0.75) as (3 * n + 3) / 4 in Nat.
* immutable Map property collections are embedded as association lists
  (insertion order, unique names by the data-model invariant).
* a thrown assertion or internal panic is embedded as the value none of an
  Option result; a normal return value v is embedded as some v.
-/

namespace CombineClasses

mutual
/-- The Type data model (spec section 3): a tagged union of the inferred type
kinds.  A class carries its ordered property list (name, property type,
isOptional) and its isFixed flag.  Cyclic references cannot be represented in
an inductive tree; the claims under verification only inspect finite shapes.
The member list of a union and the property list of a class are given as the
mutually defined TypList and PropList so that structural recursion over the
tree stays kernel-computable. -/
inductive Typ where
  | tAny : Typ
  | tNull : Typ
  | tBool : Typ
  | tInteger : Typ
  | tDouble : Typ
  | tString : Typ
  | tArray (items : Typ) : Typ
  | tMap (values : Typ) : Typ
  | tEnum (cases : List String) : Typ
  | tUnion (members : TypList) : Typ
  | tClass (properties : PropList) (isFixed : Bool) : Typ
inductive TypList where
  | nil : TypList
  | cons (head : Typ) (tail : TypList) : TypList
inductive PropList where
  | nil : PropList
  | cons (name : String) (type : Typ) (isOptional : Bool) (tail : PropList) : PropList
end

mutual
/-- Structural equality of embedded type trees, by mutual recursion. -/
def Typ.beq : Typ → Typ → Bool
  | .tAny, .tAny => true
  | .tNull, .tNull => true
  | .tBool, .tBool => true
  | .tInteger, .tInteger => true
  | .tDouble, .tDouble => true
  | .tString, .tString => true
  | .tArray a, .tArray b => Typ.beq a b
  | .tMap a, .tMap b => Typ.beq a b
  | .tEnum a, .tEnum b => a == b
  | .tUnion a, .tUnion b => TypList.beq a b
  | .tClass a fa, .tClass b fb => PropList.beq a b && fa == fb
  | _, _ => false
def TypList.beq : TypList → TypList → Bool
  | .nil, .nil => true
  | .cons x xs, .cons y ys => Typ.beq x y && TypList.beq xs ys
  | _, _ => false
def PropList.beq : PropList → PropList → Bool
  | .nil, .nil => true
  | .cons n1 t1 o1 xs, .cons n2 t2 o2 ys =>
      n1 == n2 && Typ.beq t1 t2 && o1 == o2 && PropList.beq xs ys
  | _, _ => false
end

instance : BEq Typ := ⟨Typ.beq⟩

/-- The members of a union, as an ordinary list. -/
def TypList.toList : TypList → List Typ
  | .nil => []
  | .cons x xs => x :: TypList.toList xs

/-- The kind tag of a type, as the source's t.kind string. -/
def Typ.kind : Typ → String
  | .tAny => "any"
  | .tNull => "null"
  | .tBool => "bool"
  | .tInteger => "integer"
  | .tDouble => "double"
  | .tString => "string"
  | .tArray _ => "array"
  | .tMap _ => "map"
  | .tEnum _ => "enum"
  | .tUnion _ => "union"
  | .tClass _ _ => "class"

/-- ClassProperty (spec section 3): a property's type together with its
optionality flag. -/
structure ClassProperty where
  type : Typ
  isOptional : Bool

instance : BEq ClassProperty :=
  ⟨fun a b => Typ.beq a.type b.type && a.isOptional == b.isOptional⟩

/-- A class's property collection: an insertion-ordered association list from
property name to ClassProperty (the immutable Map of the source). -/
abbrev PropMap := List (String × ClassProperty)

/-- ClassType (spec section 3): a record type of the graph.  ref is the
graph-scoped identity reference ("every Type node ... has a stable identity
reference", spec section 3); the structural predicates below never inspect
it, it only serves to distinguish distinct graph nodes of equal shape. -/
structure ClassType where
  ref : Nat
  properties : PropMap
  isFixed : Bool

/-- Modelled from the spec: structurallyCompatible (section 4.1) is a
capability consumed from the external Type Model, "an exact-shape equality
for two types of the same kind"; its source is not part of this repository
slice, so it is modelled as structural equality of the embedded type trees. -/
def structurallyCompatible (a b : Typ) : Bool := Typ.beq a b

/-- Modelled from the spec: structural compatibility of two classes — "two
classes with identical property names/types/optionality" (section 4.1).  The
identity reference and the isFixed flag are not part of the shape. -/
def ClassType.structurallyCompatible (c1 c2 : ClassType) : Bool :=
  c1.properties == c2.properties

/-- Modelled from the spec: nonNullTypeCases (section 6) "strips Null from a
(possibly union) type", yielding the ordered set of non-null alternatives. -/
def nonNullTypeCases : Typ → List Typ
  | .tNull => []
  | .tUnion members => members.toList.filter (fun t => !Typ.beq t Typ.tNull)
  | t => [t]

/-- Lookup in the source's s2ByKind index: immutable Map construction from an
entry sequence lets later entries overwrite earlier ones, so the lookup
returns the last element of s2 with the given kind. -/
def kindLookup (s2 : List Typ) (k : String) : Option Typ :=
  s2.foldl (fun acc t => if t.kind == k then some t else acc) none

/-- typeSetsCanBeCombined from the source: fail on differing sizes, otherwise
index s2 by kind and require every member of s1 to find a same-kind,
structurally compatible counterpart. -/
def typeSetsCanBeCombined (s1 s2 : List Typ) : Bool :=
  if s1.length != s2.length then false
  else s1.all fun t =>
    match kindLookup s2 t.kind with
    | none => false
    | some other => structurallyCompatible t other

/-- Lookup of a property by name (immutable Map get). -/
def mapGet (m : PropMap) (name : String) : Option ClassProperty :=
  (m.find? (fun e => e.1 == name)).map (fun e => e.2)

/-- Membership of a property name (immutable Map has). -/
def mapHas (m : PropMap) (name : String) : Bool :=
  (m.find? (fun e => e.1 == name)).isSome

/-- The size-ratio gate of canBeCombined: true means reject.  The source
compares p1.size < p2.size * 0.75 in floating point; with 0.75 = 3/4 exact
this is the exact integer comparison 4 * s1 < 3 * s2. -/
def sizeGate (s1 s2 : Nat) : Bool :=
  decide (4 * s1 < 3 * s2) || decide (4 * s2 < 3 * s1)

/-- The larger/smaller ordering of the two property maps in canBeCombined:
if p1.size > p2.size then (larger, smaller) = (p1, p2) else (p2, p1). -/
def orderBySize (p1 p2 : PropMap) : PropMap × PropMap :=
  if p1.length > p2.length then (p1, p2) else (p2, p1)

/-- minOverlap = ceil(larger.size * 0.75), exactly (3 * n + 3) / 4 in Nat. -/
def minOverlap (largerSize : Nat) : Nat := (3 * largerSize + 3) / 4

/-- maxFaults = smaller.size - minOverlap, computed in Int because the source
computes it before asserting it is non-negative. -/
def maxFaults (smallerSize largerSize : Nat) : Int :=
  (smallerSize : Int) - (minOverlap largerSize : Int)

/-- The common properties collected by the scan of the smaller map: the
names of the smaller map, in order, that also occur in the larger map.  The
source collects these during an early-exiting forEach; the early exit fires
only when the fault budget is already exceeded, in which case the collected
list is never consulted, so collecting all common names is equivalent. -/
def commonProperties (smaller larger : PropMap) : List String :=
  (smaller.map Prod.fst).filter (fun name => mapHas larger name)

/-- The fault count of the scan: how many names of the smaller map have no
counterpart in the larger map. -/
def faultCount (smaller larger : PropMap) : Nat :=
  ((smaller.map Prod.fst).filter (fun name => !mapHas larger name)).length

/-- The per-common-property loop of canBeCombined: look both properties up
(a failing lookup is the internal panic "Both of these should have this
property", embedded as none), and reject when both non-null type-case sets
are non-empty but not combinable. -/
def checkCommonProps (smaller larger : PropMap) : List String → Option Bool
  | [] => some true
  | name :: rest =>
    match mapGet smaller name, mapGet larger name with
    | some ts, some tl =>
      let tsCases := nonNullTypeCases ts.type
      let tlCases := nonNullTypeCases tl.type
      if !tsCases.isEmpty && !tlCases.isEmpty && !typeSetsCanBeCombined tsCases tlCases
      then some false
      else checkCommonProps smaller larger rest
    | _, _ => none

/-- canBeCombined from the source.  none embeds a thrown assertion ("Max
faults negative") or internal panic; some b embeds a returned boolean. -/
def canBeCombined (c1 c2 : ClassType) : Option Bool :=
  let p1 := c1.properties
  let p2 := c2.properties
  if sizeGate p1.length p2.length then some false
  else
    let lp := orderBySize p1 p2
    let larger := lp.1
    let smaller := lp.2
    let maxF := maxFaults smaller.length larger.length
    if maxF < 0 then none
    else if (faultCount smaller larger : Int) > maxF then some false
    else checkCommonProps smaller larger (commonProperties smaller larger)

/-- Clique (spec section 3): the transient grouping built by the clique
finder, with its member list and its prototype (comparison-anchor) list. -/
structure Clique where
  members : List ClassType
  prototypes : List ClassType

/-- The second prototype loop of tryAddToClique: scan the prototypes for one
that canBeCombined with the candidate, propagating an internal panic. -/
def findCombinable (c : ClassType) : List ClassType → Option Bool
  | [] => some false
  | p :: rest =>
    match canBeCombined p c with
    | none => none
    | some true => some true
    | some false => findCombinable c rest

/-- tryAddToClique from the source: an exact structural match appends the
candidate to members only; otherwise a fuzzy canBeCombined match appends it
to both prototypes and members; otherwise the clique is unchanged and false
is returned.  The source mutates the clique in place; the embedding returns
the updated clique alongside the boolean. -/
def tryAddToClique (c : ClassType) (clique : Clique) : Option (Bool × Clique) :=
  if clique.prototypes.any (fun p => ClassType.structurallyCompatible p c) then
    some (true, { clique with members := clique.members ++ [c] })
  else
    match findCombinable c clique.prototypes with
    | none => none
    | some true =>
      some (true, { members := clique.members ++ [c], prototypes := clique.prototypes ++ [c] })
    | some false => some (false, clique)

/-- The inner candidate scan of findSimilarityCliques: try every remaining
candidate against the clique in order, collecting the ones that do not fit
into the classesLeft list. -/
def cliqueScan (clique : Clique) : List ClassType → Option (Clique × List ClassType)
  | [] => some (clique, [])
  | c :: rest =>
    match tryAddToClique c clique with
    | none => none
    | some (true, clique2) => cliqueScan clique2 rest
    | some (false, clique2) =>
      match cliqueScan clique2 rest with
      | none => none
      | some (cf, left) => some (cf, c :: left)

/-- The outer loop of findSimilarityCliques: seed a clique from the first
remaining candidate, scan the rest, emit the members when more than one, and
recurse on the classes left over.  The loop consumes at least the seed each
round, so the number of remaining candidates strictly decreases; fuel is that
count, making the recursion structural and kernel-computable. -/
def fscLoop : Nat → List ClassType → Option (List (List ClassType))
  | _, [] => some []
  | 0, _ :: _ => none
  | fuel + 1, seed :: rest =>
    match cliqueScan { members := [seed], prototypes := [seed] } rest with
    | none => none
    | some (clique, left) =>
      match fscLoop fuel left with
      | none => none
      | some cs =>
        some ((if clique.members.length > 1 then [clique.members] else []) ++ cs)

/-- findSimilarityCliques from the source.  The enumeration of the graph's
classes (allNamedTypesSeparated, external, spec section 6) is taken as the
input list; the isFixed filter is the source's.  The fuel equals the number
of candidates, which the totality lemmas below prove sufficient. -/
def findSimilarityCliques (candidates : List ClassType) (includeFixedClasses : Bool) :
    Option (List (List ClassType)) :=
  let unprocessedClasses := candidates.filter (fun c => includeFixedClasses || !c.isFixed)
  fscLoop unprocessedClasses.length unprocessedClasses

/-- makeCliqueClass from the source, the replacement-construction callback of
combineClasses: assert the clique non-empty (none embeds the assertion
failure "Clique can't be empty"), combine the members' attribute bags, and
invoke the external Unifier.  The external collaborators — getAttributes,
combineTypeAttributes, unifyTypes together with the builder and forwarding
reference it closes over (spec section 6) — are parameters. -/
def makeCliqueClass {α β : Type} (getAttributes : ClassType → α)
    (combineTypeAttributes : List α → α) (unifyTypes : List ClassType → α → β)
    (clique : List ClassType) : Option β :=
  if clique.length > 0 then
    some (unifyTypes clique (combineTypeAttributes (clique.map getAttributes)))
  else none

/-- The clique computation of combineClasses from the source: whatever the
caller-supplied options, it invokes findSimilarityCliques with
includeFixedClasses = false; the resulting cliques are handed to the external
graph rewrite engine, which is outside this slice. -/
def combineClassesCliques (graphClasses : List ClassType)
    (_alphabetizeProperties _conflateNumbers : Bool) : Option (List (List ClassType)) :=
  findSimilarityCliques graphClasses false

/-! Helper lemmas. -/

theorem orderBySize_fst_length (p1 p2 : PropMap) :
    (orderBySize p1 p2).1.length = max p1.length p2.length := by
  unfold orderBySize
  split <;> simp <;> omega

theorem orderBySize_snd_length (p1 p2 : PropMap) :
    (orderBySize p1 p2).2.length = min p1.length p2.length := by
  unfold orderBySize
  split <;> simp <;> omega

theorem sizeGate_false_maxFaults {s1 s2 : Nat} (h : sizeGate s1 s2 = false) :
    0 ≤ maxFaults (min s1 s2) (max s1 s2) := by
  unfold sizeGate at h
  unfold maxFaults minOverlap
  simp only [Bool.or_eq_false_iff, decide_eq_false_iff_not, Nat.not_lt] at h
  omega

theorem mapHas_eq_isSome (m : PropMap) (name : String) :
    mapHas m name = (mapGet m name).isSome := by
  unfold mapHas mapGet
  cases m.find? (fun e => e.1 == name) <;> rfl

theorem mapHas_of_mem_fst {m : PropMap} {name : String} (h : name ∈ m.map Prod.fst) :
    mapHas m name = true := by
  unfold mapHas
  simp only [List.find?_isSome]
  obtain ⟨e, he, rfl⟩ := List.mem_map.mp h
  exact ⟨e, he, by simp⟩

theorem mem_fst_of_mapGet {m : PropMap} {name : String} {p : ClassProperty}
    (h : mapGet m name = some p) : name ∈ m.map Prod.fst := by
  unfold mapGet at h
  obtain ⟨e, he, hval⟩ := Option.map_eq_some'.mp h
  have hmem := List.mem_of_find?_eq_some he
  have hkey : e.1 = name := by
    have := List.find?_some he
    simpa using this
  exact List.mem_map.mpr ⟨e, hmem, hkey⟩

theorem commonProperties_has {smaller larger : PropMap} {name : String}
    (h : name ∈ commonProperties smaller larger) :
    mapHas smaller name = true ∧ mapHas larger name = true := by
  unfold commonProperties at h
  have hfilter := List.mem_filter.mp h
  exact ⟨mapHas_of_mem_fst hfilter.1, hfilter.2⟩

theorem mem_commonProperties {smaller larger : PropMap} {name : String} {ts tl : ClassProperty}
    (hts : mapGet smaller name = some ts) (htl : mapGet larger name = some tl) :
    name ∈ commonProperties smaller larger := by
  unfold commonProperties
  refine List.mem_filter.mpr ⟨mem_fst_of_mapGet hts, ?_⟩
  rw [mapHas_eq_isSome, htl]
  rfl

theorem checkCommonProps_isSome (smaller larger : PropMap) (names : List String)
    (h : ∀ n ∈ names, mapHas smaller n = true ∧ mapHas larger n = true) :
    (checkCommonProps smaller larger names).isSome := by
  induction names with
  | nil => rfl
  | cons name rest ih =>
    obtain ⟨h1, h2⟩ := h name (by simp)
    rw [mapHas_eq_isSome] at h1 h2
    obtain ⟨ts, hts⟩ := Option.isSome_iff_exists.mp h1
    obtain ⟨tl, htl⟩ := Option.isSome_iff_exists.mp h2
    unfold checkCommonProps
    rw [hts, htl]
    simp only []
    split
    · rfl
    · exact ih (fun n hn => h n (by simp [hn]))

theorem checkCommonProps_false (smaller larger : PropMap) (names : List String)
    (h : ∀ n ∈ names, mapHas smaller n = true ∧ mapHas larger n = true)
    {name : String} (hmem : name ∈ names) {ts tl : ClassProperty}
    (hts : mapGet smaller name = some ts) (htl : mapGet larger name = some tl)
    (hne1 : nonNullTypeCases ts.type ≠ [])
    (hne2 : nonNullTypeCases tl.type ≠ [])
    (hcomb : typeSetsCanBeCombined (nonNullTypeCases ts.type) (nonNullTypeCases tl.type) = false) :
    checkCommonProps smaller larger names = some false := by
  induction names with
  | nil => cases hmem
  | cons hd rest ih =>
    obtain ⟨h1, h2⟩ := h hd (by simp)
    rw [mapHas_eq_isSome] at h1 h2
    obtain ⟨tsh, htsh⟩ := Option.isSome_iff_exists.mp h1
    obtain ⟨tlh, htlh⟩ := Option.isSome_iff_exists.mp h2
    unfold checkCommonProps
    rw [htsh, htlh]
    simp only []
    rcases List.mem_cons.mp hmem with heq | hrest
    · subst heq
      rw [hts] at htsh
      rw [htl] at htlh
      cases htsh
      cases htlh
      split
      · rfl
      · rename_i hcond
        exfalso
        apply hcond
        simp [Bool.and_eq_true, List.isEmpty_iff, hne1, hne2, hcomb]
    · split
      · rfl
      · exact ih (fun n hn => h n (by simp [hn])) hrest

theorem canBeCombined_isSome (c1 c2 : ClassType) : (canBeCombined c1 c2).isSome := by
  unfold canBeCombined
  simp only []
  split
  · rfl
  · rename_i hgate
    rw [if_neg]
    · split
      · rfl
      · exact checkCommonProps_isSome _ _ _ (fun n hn => commonProperties_has hn)
    · rw [orderBySize_fst_length, orderBySize_snd_length]
      have hg : sizeGate c1.properties.length c2.properties.length = false :=
        Bool.not_eq_true _ ▸ Bool.of_not_eq_true hgate
      have := sizeGate_false_maxFaults hg
      omega

theorem findCombinable_eq (c : ClassType) (l : List ClassType) :
    findCombinable c l = some (l.any (fun p => decide (canBeCombined p c = some true))) := by
  induction l with
  | nil => rfl
  | cons p rest ih =>
    obtain ⟨b, hb⟩ := Option.isSome_iff_exists.mp (canBeCombined_isSome p c)
    unfold findCombinable
    rw [hb]
    cases b
    · simp only [List.any_cons, hb]
      rw [ih]
      simp
    · simp [hb]

theorem tryAddToClique_eq (c : ClassType) (q : Clique) :
    tryAddToClique c q =
      if q.prototypes.any (fun p => ClassType.structurallyCompatible p c) then
        some (true, { members := q.members ++ [c], prototypes := q.prototypes })
      else if q.prototypes.any (fun p => decide (canBeCombined p c = some true)) then
        some (true, { members := q.members ++ [c], prototypes := q.prototypes ++ [c] })
      else some (false, q) := by
  unfold tryAddToClique
  split
  · rfl
  · rw [findCombinable_eq]
    cases hany : q.prototypes.any (fun p => decide (canBeCombined p c = some true)) <;> simp

theorem tryAddToClique_cases (c : ClassType) (q : Clique) :
    (∃ protos2, tryAddToClique c q = some (true, ⟨q.members ++ [c], protos2⟩)) ∨
      tryAddToClique c q = some (false, q) := by
  rw [tryAddToClique_eq]
  split
  · exact .inl ⟨q.prototypes, rfl⟩
  · split
    · exact .inl ⟨q.prototypes ++ [c], rfl⟩
    · exact .inr rfl

theorem cliqueScan_sound (l : List ClassType) (q : Clique) :
    ∃ qf left added, cliqueScan q l = some (qf, left) ∧
      qf.members = q.members ++ added ∧ (added ++ left).Perm l := by
  induction l generalizing q with
  | nil => exact ⟨q, [], [], rfl, by simp, by simp⟩
  | cons c rest ih =>
    rcases tryAddToClique_cases c q with ⟨protos2, hadd⟩ | hfalse
    · obtain ⟨qf, left, added, hscan, hmem, hperm⟩ := ih ⟨q.members ++ [c], protos2⟩
      refine ⟨qf, left, c :: added, ?_, ?_, ?_⟩
      · unfold cliqueScan
        rw [hadd]
        exact hscan
      · rw [hmem]
        simp
      · simpa using hperm.cons c
    · obtain ⟨qf, left, added, hscan, hmem, hperm⟩ := ih q
      refine ⟨qf, c :: left, added, ?_, hmem, ?_⟩
      · unfold cliqueScan
        simp only [hfalse, hscan]
      · exact List.Perm.trans List.perm_middle (hperm.cons c)

theorem fscLoop_sound (fuel : Nat) : ∀ l : List ClassType, l.length ≤ fuel →
    ∃ cs, fscLoop fuel l = some cs ∧
      (∀ m ∈ cs, 2 ≤ m.length) ∧ cs.flatten ⊆ l ∧ (l.Nodup → cs.flatten.Nodup) := by
  induction fuel with
  | zero =>
    intro l hl
    match l with
    | [] => exact ⟨[], rfl, by simp, by simp, by simp⟩
    | x :: xs => simp at hl
  | succ fuel ih =>
    intro l hl
    match l with
    | [] => exact ⟨[], rfl, by simp, by simp, by simp⟩
    | seed :: rest =>
      obtain ⟨qf, left, added, hscan, hmem, hperm⟩ :=
        cliqueScan_sound rest ⟨[seed], [seed]⟩
      have hlenp := hperm.length_eq
      simp only [List.length_append] at hlenp
      have haddsub : added ⊆ rest := fun x hx => hperm.subset (by simp [hx])
      have hleftsub : left ⊆ rest := fun x hx => hperm.subset (by simp [hx])
      obtain ⟨cs, hloop, h2, hsub, hnd⟩ := ih left (by simp at hl; omega)
      refine ⟨(if qf.members.length > 1 then [qf.members] else []) ++ cs, ?_, ?_, ?_, ?_⟩
      · unfold fscLoop
        simp only [hscan, hloop]
      · intro m hm
        rcases List.mem_append.mp hm with hmem2 | hmem2
        · split at hmem2
          · rename_i hgt
            rcases List.mem_singleton.mp hmem2 with rfl
            omega
          · cases hmem2
        · exact h2 m hmem2
      · intro x hx
        rw [List.flatten_append] at hx
        rcases List.mem_append.mp hx with hx2 | hx2
        · split at hx2
          · simp only [List.flatten, List.append_nil] at hx2
            rw [hmem] at hx2
            rcases List.mem_append.mp hx2 with hx3 | hx3
            · simp at hx3
              simp [hx3]
            · exact List.mem_cons_of_mem seed (haddsub hx3)
          · cases hx2
        · exact List.mem_cons_of_mem seed (hleftsub (hsub hx2))
      · intro hndl
        have hndrest : rest.Nodup := (List.nodup_cons.mp hndl).2
        have hseed : seed ∉ rest := (List.nodup_cons.mp hndl).1
        have hal : (added ++ left).Nodup := hperm.symm.nodup hndrest
        have hnda := (List.nodup_append.mp hal).1
        have hndleft := (List.nodup_append.mp hal).2.1
        have hdisj := (List.nodup_append.mp hal).2.2
        have hcsnd : cs.flatten.Nodup := hnd hndleft
        rw [List.flatten_append]
        split
        · simp only [List.flatten, List.append_nil]
          rw [hmem]
          refine List.Nodup.append ?_ hcsnd ?_
          · simp only [List.singleton_append, List.nodup_cons]
            exact ⟨fun hc => hseed (haddsub hc), hnda⟩
          · intro x hx1 hx2
            have hxleft := hsub hx2
            rcases (by simpa using hx1 : x = seed ∨ x ∈ added) with rfl | hx3
            · exact hseed (hleftsub hxleft)
            · exact hdisj hx3 hxleft
        · simpa using hcsnd

theorem kindLookup_foldl_spec (k : String) (s2 : List Typ) :
    ∀ (acc : Option Typ) (u : Typ),
      s2.foldl (fun acc t => if t.kind == k then some t else acc) acc = some u →
      (u ∈ s2 ∧ u.kind = k) ∨ acc = some u := by
  induction s2 with
  | nil => exact fun acc u h => .inr h
  | cons t rest ih =>
    intro acc u h
    simp only [List.foldl_cons] at h
    rcases ih _ u h with ⟨hmem, hkind⟩ | hacc
    · exact .inl ⟨List.mem_cons_of_mem t hmem, hkind⟩
    · by_cases hk : (t.kind == k) = true
      · rw [if_pos hk] at hacc
        injection hacc with hacc
        subst hacc
        exact .inl ⟨List.mem_cons_self .., by simpa using hk⟩
      · rw [if_neg hk] at hacc
        exact .inr hacc

theorem kindLookup_spec {s2 : List Typ} {k : String} {u : Typ}
    (h : kindLookup s2 k = some u) : u ∈ s2 ∧ u.kind = k := by
  rcases kindLookup_foldl_spec k s2 none u h with hgood | hbad
  · exact hgood
  · cases hbad

theorem typeSetsCanBeCombined_ne_length {s1 s2 : List Typ} (h : s1.length ≠ s2.length) :
    typeSetsCanBeCombined s1 s2 = false := by
  unfold typeSetsCanBeCombined
  rw [if_pos (by simpa using h)]

theorem typeSetsCanBeCombined_iff (s1 s2 : List Typ) (hlen : s1.length = s2.length) :
    typeSetsCanBeCombined s1 s2 = true ↔
      ∀ t ∈ s1, ∃ u, kindLookup s2 t.kind = some u ∧ u ∈ s2 ∧
        u.kind = t.kind ∧ structurallyCompatible t u = true := by
  unfold typeSetsCanBeCombined
  rw [if_neg (by simp [hlen])]
  rw [List.all_eq_true]
  constructor
  · intro h t ht
    have hthis := h t ht
    cases hk : kindLookup s2 t.kind with
    | none =>
      rw [hk] at hthis
      cases hthis
    | some u =>
      simp only [hk] at hthis
      obtain ⟨hmem, hkind⟩ := kindLookup_spec hk
      exact ⟨u, rfl, hmem, hkind, hthis⟩
  · intro h t ht
    obtain ⟨u, hk, hmem, hkind, hcompat⟩ := h t ht
    simp only [hk]
    exact hcompat

theorem flatten_nodup_at_most_one {α : Type} {cs : List (List α)} (h : cs.flatten.Nodup)
    (c : α) (i j : Fin cs.length) (hi : c ∈ cs.get i) (hj : c ∈ cs.get j) : i = j := by
  have hpw : cs.Pairwise List.Disjoint := (List.nodup_flatten.mp h).2
  rw [List.pairwise_iff_get] at hpw
  rcases lt_trichotomy i j with hlt | heq | hgt
  · exact (hpw i j hlt hi hj).elim
  · exact heq
  · exact (hpw j i hgt hj hi).elim

/-! Concrete example classes for witnesses and counterexamples. -/

/-- A required String property. -/
def strProp : ClassProperty := ⟨Typ.tString, false⟩

/-- A required Integer property. -/
def intProp : ClassProperty := ⟨Typ.tInteger, false⟩

/-- Example class with properties a, b, c, all String. -/
def exA : ClassType := ⟨0, [("a", strProp), ("b", strProp), ("c", strProp)], false⟩

/-- Example class with properties a, b, c, d, all String. -/
def exB : ClassType := ⟨1, [("a", strProp), ("b", strProp), ("c", strProp), ("d", strProp)], false⟩

/-- Example class with properties a, b, c, d, e, all String. -/
def exC : ClassType :=
  ⟨2, [("a", strProp), ("b", strProp), ("c", strProp), ("d", strProp), ("e", strProp)], false⟩

/-- Example class with the single property a of type Null. -/
def exNull : ClassType := ⟨3, [("a", ⟨Typ.tNull, false⟩)], false⟩

/-- Example class with the single property a of type String. -/
def exStr : ClassType := ⟨4, [("a", strProp)], false⟩

/-- Example class with the single property a of type Integer. -/
def exInt : ClassType := ⟨5, [("a", intProp)], false⟩

/-- Example fixed class, structurally equal to exA but with isFixed set. -/
def exFixed : ClassType := ⟨6, [("a", strProp), ("b", strProp), ("c", strProp)], true⟩

/-- The first class of the claimed size-ratio example: properties a: String,
b: Integer. -/
def ex2a : ClassType := ⟨7, [("a", strProp), ("b", intProp)], false⟩

/-- The second class of the claimed size-ratio example: properties a: String,
b: Integer, c: String. -/
def ex2b : ClassType := ⟨8, [("a", strProp), ("b", intProp), ("c", strProp)], false⟩

/-! The claim theorems. -/

/-- C2: canBeCombined returns false whenever either class's property count is
strictly less than 0.75 times the other's (the size-ratio gate, evaluated
before any per-property scan — the result is forced for all property
contents of the given sizes). -/
theorem claim2 (c1 c2 : ClassType)
    (h : 4 * c1.properties.length < 3 * c2.properties.length ∨
      4 * c2.properties.length < 3 * c1.properties.length) :
    canBeCombined c1 c2 = some false := by
  have hcond : sizeGate c1.properties.length c2.properties.length = true := by
    unfold sizeGate
    rcases h with h | h <;> simp [h]
  unfold canBeCombined
  simp only [hcond, if_true]

/-- C2 witness: the claim's concrete pair — properties a: String, b: Integer
against a: String, b: Integer, c: String — is rejected by the gate. -/
theorem claim2_witness :
    (4 * ex2a.properties.length < 3 * ex2b.properties.length ∨
      4 * ex2b.properties.length < 3 * ex2a.properties.length) ∧
    canBeCombined ex2a ex2b = some false :=
  ⟨Or.inl (by decide), claim2 ex2a ex2b (Or.inl (by decide))⟩

/-- C3: for every pair passing the size-ratio gate, the maxFaults quantity
computed inside canBeCombined (smaller size minus ceil(larger size * 0.75))
is non-negative, so the "Max faults negative" assertion never fires — indeed
canBeCombined never takes any of its panic paths. -/
theorem claim3 (c1 c2 : ClassType)
    (h : sizeGate c1.properties.length c2.properties.length = false) :
    0 ≤ maxFaults (orderBySize c1.properties c2.properties).2.length
        (orderBySize c1.properties c2.properties).1.length ∧
    canBeCombined c1 c2 ≠ none := by
  constructor
  · rw [orderBySize_fst_length, orderBySize_snd_length]
    exact sizeGate_false_maxFaults h
  · exact Option.isSome_iff_ne_none.mp (canBeCombined_isSome c1 c2)

/-- C3 witness: the pair exA (3 properties), exB (4 properties) passes the
gate and has a non-negative fault budget. -/
theorem claim3_witness :
    sizeGate exA.properties.length exB.properties.length = false ∧
    (0 ≤ maxFaults (orderBySize exA.properties exB.properties).2.length
        (orderBySize exA.properties exB.properties).1.length ∧
      canBeCombined exA exB ≠ none) :=
  ⟨by decide, claim3 exA exB (by decide)⟩

/-- C4: tryAddToClique appends the candidate to members only on an exact
structural match with some prototype, appends it to both prototypes and
members when canBeCombined holds against some prototype, and otherwise
returns false leaving the clique entirely unmodified. -/
theorem claim4 (c : ClassType) (q : Clique) :
    tryAddToClique c q =
      if q.prototypes.any (fun p => ClassType.structurallyCompatible p c) then
        some (true, { members := q.members ++ [c], prototypes := q.prototypes })
      else if q.prototypes.any (fun p => decide (canBeCombined p c = some true)) then
        some (true, { members := q.members ++ [c], prototypes := q.prototypes ++ [c] })
      else some (false, q) :=
  tryAddToClique_eq c q

/-- C7: canBeCombined is not transitive (hence not an equivalence): there are
classes A, B, C with A-B and B-C combinable but A-C not (3, 4 and 5 String
properties sharing a common prefix; the 3/5 ratio fails the gate). -/
theorem claim7 :
    ∃ A B C : ClassType, canBeCombined A B = some true ∧
      canBeCombined B C = some true ∧ canBeCombined A C = some false :=
  ⟨exA, exB, exC, by decide, by decide, by decide⟩

/-- C1 counterexample: the claim as stated fails when exactly one side's
non-null type-case set is empty.  For exNull (a: Null) against exStr
(a: String): both gates pass, the name a is common, exStr's side has a
non-empty non-null type-case set, the two sets are not combinable in either
orientation (their sizes differ) — yet canBeCombined returns true, because
the source compares a property only when BOTH sides' sets are non-empty. -/
theorem claim1_counterexample :
    sizeGate exNull.properties.length exStr.properties.length = false ∧
    mapGet exNull.properties "a" = some ⟨Typ.tNull, false⟩ ∧
    mapGet exStr.properties "a" = some ⟨Typ.tString, false⟩ ∧
    faultCount (orderBySize exNull.properties exStr.properties).2
      (orderBySize exNull.properties exStr.properties).1 = 0 ∧
    nonNullTypeCases Typ.tNull = [] ∧
    nonNullTypeCases Typ.tString ≠ [] ∧
    typeSetsCanBeCombined (nonNullTypeCases Typ.tNull) (nonNullTypeCases Typ.tString) = false ∧
    typeSetsCanBeCombined (nonNullTypeCases Typ.tString) (nonNullTypeCases Typ.tNull) = false ∧
    canBeCombined exNull exStr = some true := by
  refine ⟨rfl, rfl, rfl, rfl, rfl, ?_, rfl, rfl, rfl⟩
  simp [nonNullTypeCases]

/-- C1 as amended: for every pair of classes that passes the size-ratio gate
and the fault budget, and for every property name common to both, if BOTH
sides' non-null type-case sets are non-empty and the two sets are not
combinable per Type-Set Combinability, then canBeCombined returns false;
properties whose non-null type-case set is empty on EITHER side are not
compared.  The smaller/larger orientation is the source's orderBySize. -/
theorem claim1_amended (c1 c2 : ClassType) (name : String) (ts tl : ClassProperty)
    (hgate : sizeGate c1.properties.length c2.properties.length = false)
    (hfaults : (faultCount (orderBySize c1.properties c2.properties).2
        (orderBySize c1.properties c2.properties).1 : Int) ≤
      maxFaults (orderBySize c1.properties c2.properties).2.length
        (orderBySize c1.properties c2.properties).1.length)
    (hts : mapGet (orderBySize c1.properties c2.properties).2 name = some ts)
    (htl : mapGet (orderBySize c1.properties c2.properties).1 name = some tl)
    (hne1 : nonNullTypeCases ts.type ≠ [])
    (hne2 : nonNullTypeCases tl.type ≠ [])
    (hcomb : typeSetsCanBeCombined (nonNullTypeCases ts.type) (nonNullTypeCases tl.type)
      = false) :
    canBeCombined c1 c2 = some false := by
  unfold canBeCombined
  simp only [hgate, Bool.false_eq_true, if_false]
  rw [if_neg]
  · rw [if_neg (by omega)]
    exact checkCommonProps_false _ _ _ (fun n hn => commonProperties_has hn)
      (mem_commonProperties hts htl) hts htl hne1 hne2 hcomb
  · rw [orderBySize_fst_length, orderBySize_snd_length]
    have := sizeGate_false_maxFaults hgate
    omega

/-- C1 witness for the amended claim: exInt (a: Integer) against exStr
(a: String) — both sides' non-null sets are non-empty singletons of
different kinds, so the classes cannot be combined. -/
theorem claim1_witness :
    nonNullTypeCases Typ.tInteger ≠ [] ∧ nonNullTypeCases Typ.tString ≠ [] ∧
    canBeCombined exInt exStr = some false := by
  refine ⟨by simp [nonNullTypeCases], by simp [nonNullTypeCases], ?_⟩
  exact claim1_amended exInt exStr "a" intProp strProp (by decide) (by decide) rfl rfl
    (by simp [nonNullTypeCases, intProp]) (by simp [nonNullTypeCases, strProp]) (by decide)

/-- C6: typeSetsCanBeCombined returns false whenever the two sets differ in
size; at equal sizes it returns true exactly when every type of the first
set finds, through the kind index of the second set, a counterpart of the
same kind that is structurallyCompatible with it — so two alternatives of
different kinds never match. -/
theorem claim6 (s1 s2 : List Typ) :
    (s1.length ≠ s2.length → typeSetsCanBeCombined s1 s2 = false) ∧
    (s1.length = s2.length →
      (typeSetsCanBeCombined s1 s2 = true ↔
        ∀ t ∈ s1, ∃ u, kindLookup s2 t.kind = some u ∧ u ∈ s2 ∧
          u.kind = t.kind ∧ structurallyCompatible t u = true)) :=
  ⟨fun h => typeSetsCanBeCombined_ne_length h, fun h => typeSetsCanBeCombined_iff s1 s2 h⟩

/-- C6 witness: a singleton String set against an empty set is rejected for
its size, and against a singleton Integer set the characterization applies
(and yields false, the kinds differing). -/
theorem claim6_witness :
    typeSetsCanBeCombined [Typ.tString] [] = false ∧
    (typeSetsCanBeCombined [Typ.tString] [Typ.tInteger] = true ↔
      ∀ t ∈ [Typ.tString], ∃ u, kindLookup [Typ.tInteger] t.kind = some u ∧
        u ∈ [Typ.tInteger] ∧ u.kind = t.kind ∧ structurallyCompatible t u = true) :=
  ⟨(claim6 [Typ.tString] []).1 (by decide), (claim6 [Typ.tString] [Typ.tInteger]).2 rfl⟩

/-- C8: the prototypes list is a non-empty subset of the members list after
seeding a clique, and tryAddToClique preserves that invariant. -/
theorem claim8 (seed : ClassType) :
    ((Clique.mk [seed] [seed]).prototypes ≠ [] ∧
      (Clique.mk [seed] [seed]).prototypes ⊆ (Clique.mk [seed] [seed]).members) ∧
    ∀ (c : ClassType) (q : Clique) (b : Bool) (q2 : Clique),
      q.prototypes ≠ [] → q.prototypes ⊆ q.members →
      tryAddToClique c q = some (b, q2) →
      q2.prototypes ≠ [] ∧ q2.prototypes ⊆ q2.members := by
  refine ⟨⟨by simp, by simp⟩, ?_⟩
  intro c q b q2 hne hsub h
  rw [tryAddToClique_eq] at h
  split at h
  · injection h with h
    injection h with hb hq
    subst hq
    exact ⟨hne, fun x hx => List.mem_append_left _ (hsub hx)⟩
  · split at h
    · injection h with h
      injection h with hb hq
      subst hq
      refine ⟨by simp, fun x hx => ?_⟩
      rcases List.mem_append.mp hx with hx1 | hx1
      · exact List.mem_append_left _ (hsub hx1)
      · exact List.mem_append_right _ hx1
    · injection h with h
      injection h with hb hq
      subst hq
      exact ⟨hne, hsub⟩

/-- C8 witness: adding exB to the clique seeded with exA yields a clique
whose prototypes [exA, exB] are again a non-empty subset of its members. -/
theorem claim8_witness :
    (Clique.mk [exA, exB] [exA, exB]).prototypes ≠ [] ∧
    (Clique.mk [exA, exB] [exA, exB]).prototypes ⊆ (Clique.mk [exA, exB] [exA, exB]).members :=
  (claim8 exA).2 exB (Clique.mk [exA] [exA]) true (Clique.mk [exA, exB] [exA, exB])
    (by simp) (by simp) (by rfl)

/-- C5: on a candidate list of distinct graph nodes (pairwise distinct
identity references, the graph invariant), findSimilarityCliques succeeds
and returns cliques that each have at least 2 members, are pairwise
disjoint, and contain every candidate at most once; a seed that matches
nothing forms a singleton that is discarded, never an emitted clique. -/
theorem claim5 (candidates : List ClassType) (includeFixedClasses : Bool)
    (href : (candidates.map ClassType.ref).Nodup) :
    ∃ cliques, findSimilarityCliques candidates includeFixedClasses = some cliques ∧
      (∀ q ∈ cliques, 2 ≤ q.length) ∧
      cliques.Pairwise (fun q1 q2 => ∀ c, c ∈ q1 → c ∉ q2) ∧
      ∀ (c : ClassType) (i j : Fin cliques.length),
        c ∈ cliques.get i → c ∈ cliques.get j → i = j := by
  have hnodup : candidates.Nodup := List.Nodup.of_map _ href
  have hfil : (candidates.filter (fun c => includeFixedClasses || !c.isFixed)).Nodup :=
    hnodup.filter _
  obtain ⟨cs, hloop, h2, hsub, hnd⟩ :=
    fscLoop_sound (candidates.filter (fun c => includeFixedClasses || !c.isFixed)).length
      (candidates.filter (fun c => includeFixedClasses || !c.isFixed)) le_rfl
  have hflat := hnd hfil
  refine ⟨cs, ?_, h2, ?_, ?_⟩
  · unfold findSimilarityCliques
    exact hloop
  · exact ((List.nodup_flatten.mp hflat).2).imp (fun h c hc1 hc2 => h hc1 hc2)
  · exact fun c i j hi hj => flatten_nodup_at_most_one hflat c i j hi hj

/-- C5 witness: two combinable classes with distinct references form one
clique satisfying all the invariants. -/
theorem claim5_witness :
    ∃ cliques, findSimilarityCliques [exA, exB] false = some cliques ∧
      (∀ q ∈ cliques, 2 ≤ q.length) ∧
      cliques.Pairwise (fun q1 q2 => ∀ c, c ∈ q1 → c ∉ q2) ∧
      ∀ (c : ClassType) (i j : Fin cliques.length),
        c ∈ cliques.get i → c ∈ cliques.get j → i = j :=
  claim5 [exA, exB] false (by decide)

/-- C9: makeCliqueClass rejects an empty clique with an assertion failure
(none) before the Unifier is invoked, while every clique of size at least 1
proceeds: the members' attribute bags are combined and handed, with the
member set, to the external Unifier. -/
theorem claim9 {α β : Type} (getAttributes : ClassType → α)
    (combineTypeAttributes : List α → α) (unifyTypes : List ClassType → α → β) :
    makeCliqueClass getAttributes combineTypeAttributes unifyTypes [] = none ∧
    ∀ clique : List ClassType, 1 ≤ clique.length →
      makeCliqueClass getAttributes combineTypeAttributes unifyTypes clique =
        some (unifyTypes clique (combineTypeAttributes (clique.map getAttributes))) := by
  refine ⟨rfl, fun clique h => ?_⟩
  unfold makeCliqueClass
  rw [if_pos (by omega)]

/-- C9 witness: with concrete stand-ins for the external collaborators, the
empty clique is rejected and the singleton clique [exA] is unified. -/
theorem claim9_witness :
    makeCliqueClass (fun c => c.ref) (fun l => l.sum) (fun l a => a + l.length) [] = none ∧
    makeCliqueClass (fun c => c.ref) (fun l => l.sum) (fun l a => a + l.length) [exA]
      = some 1 :=
  ⟨(claim9 (fun c => c.ref) (fun l => l.sum) (fun l a => a + l.length)).1,
    (claim9 (fun c => c.ref) (fun l => l.sum) (fun l a => a + l.length)).2 [exA] (by decide)⟩

/-- C10: combineClasses invokes findSimilarityCliques with
includeFixedClasses = false regardless of the caller-supplied options, so no
class with isFixed = true appears in any merged clique. -/
theorem claim10 (graphClasses : List ClassType)
    (alphabetizeProperties conflateNumbers : Bool) (cliques : List (List ClassType))
    (h : combineClassesCliques graphClasses alphabetizeProperties conflateNumbers
      = some cliques) :
    ∀ q ∈ cliques, ∀ c ∈ q, c.isFixed = false := by
  unfold combineClassesCliques findSimilarityCliques at h
  obtain ⟨cs, hloop, h2, hsub, hnd⟩ :=
    fscLoop_sound (graphClasses.filter (fun c => false || !c.isFixed)).length
      (graphClasses.filter (fun c => false || !c.isFixed)) le_rfl
  rw [hloop] at h
  injection h with h
  subst h
  intro q hq c hc
  have hmemf := hsub (List.mem_flatten.mpr ⟨q, hq, hc⟩)
  have := (List.mem_filter.mp hmemf).2
  simpa using this

/-- C10 witness: with the fixed class exFixed among the candidates and
arbitrary option values, the one emitted clique is [exA, exB], and both its
members are non-fixed. -/
theorem claim10_witness : exA.isFixed = false ∧ exB.isFixed = false :=
  ⟨claim10 [exA, exFixed, exB] true false [[exA, exB]] (by rfl) [exA, exB] (by simp)
      exA (by simp),
    claim10 [exA, exFixed, exB] true false [[exA, exB]] (by rfl) [exA, exB] (by simp)
      exB (by simp)⟩

end CombineClasses
